import Mathlib

/-!
Verification of the ikanban orchestration core against its specification.

Each Rust source function relevant to the claims is shallowly embedded as an
executable Lean definition.  Impure effects are made explicit:
- the sqlite database is a map from id to row, passed and returned explicitly;
- clock reads (`chrono_now`) become a `now : String` parameter;
- subprocess/HTTP outcomes become parameters describing the observed result;
- async select loops become step functions over a list of observed events.
-/

set_option autoImplicit false

namespace IKanban

/-! ## Session status model (src/server/models.rs) -/

/-- Session lifecycle status, from `SessionStatus` in src/server/models.rs. -/
inductive SessionStatus where
  | Pending
  | Running
  | Completed
  | Failed
  | Cancelled
deriving DecidableEq, Repr

/-- Default status, from `#[default]` on `Pending`. -/
instance : Inhabited SessionStatus := ⟨SessionStatus.Pending⟩

namespace SessionStatus

/-- String form of a status (`SessionStatus::as_str`). -/
def as_str : SessionStatus → String
  | .Pending => "pending"
  | .Running => "running"
  | .Completed => "completed"
  | .Failed => "failed"
  | .Cancelled => "cancelled"

/-- Parse a status string (`SessionStatus::from_str`). -/
def from_str : String → Option SessionStatus
  | "pending" => some .Pending
  | "running" => some .Running
  | "completed" => some .Completed
  | "failed" => some .Failed
  | "cancelled" => some .Cancelled
  | _ => none

/-- The transition guard (`SessionStatus::can_transition_to`,
src/server/models.rs lines 37-48). -/
def can_transition_to : SessionStatus → SessionStatus → Bool
  | .Pending, .Running => true
  | .Pending, .Cancelled => true
  | .Running, .Completed => true
  | .Running, .Failed => true
  | .Running, .Cancelled => true
  | _, _ => false

end SessionStatus

/-! ## Session rows and the persisted store (src/server/session.rs) -/

/-- A row of the `sessions` table (`Session` in src/server/models.rs). -/
structure Session where
  id : String
  task_id : String
  worktree_path : Option String
  branch_name : Option String
  status : String
  created_at : String
  ended_at : Option String
deriving DecidableEq, Repr

/-- Parse the stored status string, defaulting to `Pending`
(`Session::status_enum`). -/
def Session.status_enum (s : Session) : SessionStatus :=
  (SessionStatus.from_str s.status).getD default

/-- Error type of the session manager (`SessionError` in src/server/session.rs).
The `Database` and `Io` payloads are the underlying error rendered to a string. -/
inductive SessionError where
  | Database (msg : String)
  | TaskNotFound (id : String)
  | SessionNotFound (id : String)
  | ProjectNotFound (id : String)
  | InvalidTransition (from_ : String) (to_ : String)
  | Worktree (msg : String)
  | Agent (msg : String)
  | Io (msg : String)
deriving DecidableEq, Repr

/-- The persisted sessions table, as a map from session id to row. -/
def Db : Type := String → Option Session

/-- Point update of the sessions table. -/
def Db.set (db : Db) (sid : String) (s : Session) : Db :=
  fun k => if k = sid then some s else db k

/-- Lookup of a session row (`SessionManager::get_session`); a missing row is
the `SessionNotFound` error. -/
def get_session (db : Db) (sid : String) : Except SessionError Session :=
  match db sid with
  | some s => .ok s
  | none => .error (.SessionNotFound sid)

/-- State transition of a persisted session
(`SessionManager::transition_session_status`, src/server/session.rs lines
183-222).  The database is passed and returned explicitly; `now` stands for
`chrono_now()`.  A guard failure returns `InvalidTransition` without touching
the database; otherwise the row's status (and, for terminal targets, its
`ended_at`) is updated and the row is re-read. -/
def transition_session_status (db : Db) (now : String) (session_id : String)
    (new_status : SessionStatus) : Db × Except SessionError Session :=
  match get_session db session_id with
  | .error e => (db, .error e)
  | .ok session =>
    let current_status := session.status_enum
    if ¬ current_status.can_transition_to new_status then
      (db, .error (.InvalidTransition current_status.as_str new_status.as_str))
    else
      let ended_at : Option String :=
        match new_status with
        | .Completed | .Failed | .Cancelled => some now
        | _ => none
      let session' : Session :=
        match ended_at with
        | some ended =>
          { session with status := new_status.as_str, ended_at := some ended }
        | none => { session with status := new_status.as_str }
      let db' := db.set session_id session'
      (db', get_session db' session_id)

end IKanban

namespace IKanban

/-! ## Branch names and worktree creation (src/server/worktree.rs)

Rust strings are modelled as lists of `Char`; Rust's byte-indexed string
slicing is modelled through each character's UTF-8 size, so that a slice
index that is not a character boundary (a panic in Rust) is an explicit
`none`. -/

/-- Model of Rust's Unicode `char::is_alphanumeric`, exact on the
character ranges exercised here: ASCII alphanumerics, the Latin-1 letters
U+00C0..U+00FF (all Unicode-alphabetic except the two operators U+00D7 and
U+00F7), and the CJK Unified Ideographs U+4E00..U+9FFF (all
Unicode-alphabetic). -/
def rustIsAlphanumeric (c : Char) : Bool :=
  c.isAlphanum
  || (0xC0 ≤ c.toNat && c.toNat ≤ 0xFF && c.toNat ≠ 0xD7 && c.toNat ≠ 0xF7)
  || (0x4E00 ≤ c.toNat && c.toNat ≤ 0x9FFF)

/-- Model of Rust's `str::to_lowercase` applied character by character:
ASCII uppercase letters move down by 32, everything else is unchanged.
This is exact for every character whose Unicode lowercase is itself or a
single ASCII shift (all characters exercised by the claims). -/
def rustCharToLower (c : Char) : Char :=
  if 65 ≤ c.toNat ∧ c.toNat ≤ 90 then Char.ofNat (c.toNat + 32) else c

/-- UTF-8 byte length of a character list, matching Rust's `str::len`. -/
def utf8Len (l : List Char) : Nat :=
  (l.map Char.utf8Size).sum

/-- Model of Rust's `str::trim_matches('-')`: drop hyphens from both ends. -/
def trimHyphens (l : List Char) : List Char :=
  ((l.dropWhile (fun c => c = '-')).reverse.dropWhile (fun c => c = '-')).reverse

/-- Model of Rust's byte slice `&s[..n]`: the characters making up the
first `n` UTF-8 bytes, or `none` when `n` is not a character boundary of
`s` (in Rust this is a panic) or exceeds the byte length. -/
def slicePrefixBytes : List Char → Nat → Option (List Char)
  | _, 0 => some []
  | [], _ + 1 => none
  | c :: cs, n + 1 =>
    if c.utf8Size ≤ n + 1 then
      (slicePrefixBytes cs (n + 1 - c.utf8Size)).map (fun t => c :: t)
    else
      none

/-- Branch name generation (`generate_branch_name`, src/server/worktree.rs
lines 35-56): map every character that is neither alphanumeric nor a hyphen
to a hyphen, lowercase, trim hyphens at both ends, cut at the 50-byte mark
when longer, and prepend `task/<id>-`.  The result is `none` exactly when
the 50-byte cut in the source (`&trimmed[..50]`) falls inside a multi-byte
character, which panics in Rust. -/
def generate_branch_name (task_id : Int) (slug : List Char) : Option String :=
  let sanitized_slug : List Char :=
    slug.map (fun c => if rustIsAlphanumeric c || c = '-' then c else '-')
  let lowered := sanitized_slug.map rustCharToLower
  let trimmed := trimHyphens lowered
  let truncated : Option (List Char) :=
    if utf8Len trimmed > 50 then slicePrefixBytes trimmed 50 else some trimmed
  truncated.map
    (fun t => "task/" ++ toString task_id ++ "-" ++ String.mk t)

/-- The claim's reading of branch name generation, stated from the spec's
words: lowercase, sanitize to alphanumerics and hyphens, trim hyphens, and
truncate to 50 rendered characters (`List.take 50`), never observing byte
boundaries. -/
def generate_branch_name_claimed (task_id : Int) (slug : List Char) : String :=
  let sanitized_slug : List Char :=
    slug.map (fun c => if rustIsAlphanumeric c || c = '-' then c else '-')
  let lowered := sanitized_slug.map rustCharToLower
  let trimmed := trimHyphens lowered
  "task/" ++ toString task_id ++ "-" ++ String.mk (trimmed.take 50)

/-- Outcome of one external `git` invocation: the exit status predicate
`output.status.success()` together with the captured stderr text. -/
structure CmdOutput where
  success : Bool
  stderr : String
deriving DecidableEq, Repr

/-- Occurrence of `p` as a contiguous run inside a character list. -/
def containsSub (p : List Char) : List Char → Bool
  | [] => p.isPrefixOf []
  | c :: rest => p.isPrefixOf (c :: rest) || containsSub p rest

/-- Substring test modelling Rust's `str::contains`. -/
def rustContains (s pat : String) : Bool :=
  containsSub pat.data s.data

/-- Error type of the worktree module (`WorktreeError` in
src/server/worktree.rs). -/
inductive WorktreeError where
  | GitError (msg : String)
  | IoError (msg : String)
  | NotFound (path : String)
  | InvalidPath (path : String)
deriving DecidableEq, Repr

/-- Worktree creation (`create_worktree`, src/server/worktree.rs lines
58-96), parameterised by the outcomes of the two possible `git worktree add`
invocations.  The second invocation (`git worktree add <path> <branch>`)
runs only when the first (`git worktree add -b <branch> <path>`) fails with
a stderr containing "already exists"; any other first failure returns the
first stderr immediately. -/
def create_worktree (first second : CmdOutput) : Except WorktreeError Unit :=
  if first.success then
    .ok ()
  else if rustContains first.stderr "already exists" then
    if second.success then
      .ok ()
    else
      .error (.GitError second.stderr)
  else
    .error (.GitError first.stderr)

/-- Worktree creation in the session manager
(`SessionManager::create_git_worktree`, src/server/session.rs lines
287-320), parameterised the same way: here the second invocation runs on
every failure of the first, and failure of both yields a `Worktree` error
carrying the second stderr. -/
def create_git_worktree (first second : CmdOutput) : Except SessionError Unit :=
  if first.success then
    .ok ()
  else if second.success then
    .ok ()
  else
    .error (.Worktree ("Failed to create worktree: " ++ second.stderr))

end IKanban

namespace IKanban

/-! ## Helper lemmas about branch-name sanitisation -/

/-- A successful byte slice is byte-bounded by the requested length. -/
theorem slicePrefixBytes_utf8Len_le :
    ∀ (l : List Char) (n : Nat) (t : List Char),
      slicePrefixBytes l n = some t → utf8Len t ≤ n := by
  intro l
  induction l with
  | nil =>
    intro n t h
    cases n with
    | zero =>
      simp [slicePrefixBytes] at h
      simp [h, utf8Len]
    | succ n => simp [slicePrefixBytes] at h
  | cons c cs ih =>
    intro n t h
    cases n with
    | zero =>
      simp [slicePrefixBytes] at h
      simp [h, utf8Len]
    | succ n =>
      by_cases hsz : c.utf8Size ≤ n + 1
      · simp [slicePrefixBytes, hsz] at h
        obtain ⟨t', ht', rfl⟩ := h
        have := ih _ _ ht'
        have hpos := Char.utf8Size_pos c
        simp [utf8Len] at this ⊢
        omega
      · simp [slicePrefixBytes, hsz] at h

/-- A successful byte slice is a prefix of the original list. -/
theorem slicePrefixBytes_isPrefix :
    ∀ (l : List Char) (n : Nat) (t : List Char),
      slicePrefixBytes l n = some t → t <+: l := by
  intro l
  induction l with
  | nil =>
    intro n t h
    cases n with
    | zero => simp [slicePrefixBytes] at h; simp [h]
    | succ n => simp [slicePrefixBytes] at h
  | cons c cs ih =>
    intro n t h
    cases n with
    | zero => simp [slicePrefixBytes] at h; simp [h]
    | succ n =>
      by_cases hsz : c.utf8Size ≤ n + 1
      · simp [slicePrefixBytes, hsz] at h
        obtain ⟨t', ht', rfl⟩ := h
        obtain ⟨r, hr⟩ := ih _ _ ht'
        exact ⟨r, by simp [hr]⟩
      · simp [slicePrefixBytes, hsz] at h

/-- Trimming hyphens yields a sublist of the input. -/
theorem trimHyphens_sublist (l : List Char) : (trimHyphens l).Sublist l := by
  unfold trimHyphens
  have h1 : (l.dropWhile (fun c => c = '-')).Sublist l := List.dropWhile_sublist _
  have h2 : ((l.dropWhile (fun c => c = '-')).reverse.dropWhile
      (fun c => c = '-')).Sublist (l.dropWhile (fun c => c = '-')).reverse :=
    List.dropWhile_sublist _
  have h3 := h2.reverse
  simp at h3
  exact h3.trans h1

/-- The ASCII-lowering step keeps a character inside the
alphanumeric-or-hyphen set. -/
theorem rustCharToLower_keeps (c : Char)
    (h : rustIsAlphanumeric c = true ∨ c = '-') :
    rustIsAlphanumeric (rustCharToLower c) = true ∨ rustCharToLower c = '-' := by
  unfold rustCharToLower
  by_cases hc : 65 ≤ c.toNat ∧ c.toNat ≤ 90
  · simp only [hc, if_pos]
    left
    obtain ⟨h1, h2⟩ := hc
    have key : ∀ k, 65 ≤ k → k ≤ 90 →
        rustIsAlphanumeric (Char.ofNat (k + 32)) = true := by
      intro k hk1 hk2
      interval_cases k <;> decide
    exact key _ h1 h2
  · simp only [hc, if_neg, not_false_iff]
    exact h

/-- Every character of the sanitised, lowered slug is alphanumeric or a
hyphen. -/
theorem sanitized_lowered_chars (slug : List Char) (c : Char)
    (h : c ∈ (slug.map
        (fun c => if rustIsAlphanumeric c || c = '-' then c else '-')).map
        rustCharToLower) :
    rustIsAlphanumeric c = true ∨ c = '-' := by
  simp only [List.mem_map] at h
  obtain ⟨a, ⟨b, _, rfl⟩, rfl⟩ := h
  apply rustCharToLower_keeps
  by_cases hb : (rustIsAlphanumeric b || b = '-') = true
  · simp only [hb, if_pos]
    rcases Bool.or_eq_true _ _ |>.mp hb with hb1 | hb2
    · exact Or.inl hb1
    · exact Or.inr (by simpa using hb2)
  · simp only [hb, if_neg, not_false_iff]
    exact Or.inr rfl

/-! ## Theorems for claim C1 -/

/-- C1: the transition guard admits exactly the five edges
Pending→Running, Pending→Cancelled, Running→Completed, Running→Failed,
Running→Cancelled; any transition request whose (from, to) pair is outside
this edge set fails with `InvalidTransition {from, to}` and leaves the
persisted sessions table unchanged. -/
theorem C1_session_status_transitions :
    (∀ f t : SessionStatus, f.can_transition_to t = true ↔
      ((f = .Pending ∧ t = .Running) ∨ (f = .Pending ∧ t = .Cancelled) ∨
       (f = .Running ∧ t = .Completed) ∨ (f = .Running ∧ t = .Failed) ∨
       (f = .Running ∧ t = .Cancelled))) ∧
    (∀ (db : Db) (now sid : String) (s : Session) (target : SessionStatus),
      db sid = some s →
      s.status_enum.can_transition_to target = false →
      transition_session_status db now sid target =
        (db, .error (.InvalidTransition s.status_enum.as_str target.as_str))) := by
  constructor
  · intro f t
    cases f <;> cases t <;> simp [SessionStatus.can_transition_to]
  · intro db now sid s target hs hguard
    simp [transition_session_status, get_session, hs, hguard]

/-- A concrete pending session row used to witness C1. -/
def pendingSessionRow : Session :=
  { id := "s1", task_id := "t1", worktree_path := none, branch_name := none,
    status := "pending", created_at := "2024-01-01 00:00:00", ended_at := none }

/-- A concrete one-row sessions table used to witness C1. -/
def oneRowDb : Db :=
  fun k => if k = "s1" then some pendingSessionRow else none

/-- Witness for C1 at a concrete store: a pending session asked to complete
directly is rejected with `InvalidTransition pending completed` and the
store is returned unchanged. -/
theorem C1_session_status_transitions_witness :
    oneRowDb "s1" = some pendingSessionRow ∧
    pendingSessionRow.status_enum.can_transition_to .Completed = false ∧
    transition_session_status oneRowDb "2024-01-02 00:00:00" "s1" .Completed =
      (oneRowDb, .error (.InvalidTransition pendingSessionRow.status_enum.as_str
        (SessionStatus.Completed).as_str)) :=
  ⟨rfl, by decide,
    C1_session_status_transitions.2 oneRowDb "2024-01-02 00:00:00" "s1"
      pendingSessionRow .Completed rfl (by decide)⟩

end IKanban

namespace IKanban

/-! ## Theorems for claims C5, C8, C10 -/

/-- Counterexample for C5: the code truncates the sanitised slug at 50
UTF-8 bytes, not 50 characters.  For a slug of thirty 'é' characters
(60 bytes, 30 characters) the claimed algorithm keeps all 30 characters
(30 ≤ 50), but the code cuts after 25 characters (50 bytes). -/
theorem C5_branch_name_counterexample :
    generate_branch_name 1 (List.replicate 30 'é') =
      some (String.mk ("task/1-".data ++ List.replicate 25 'é')) ∧
    generate_branch_name_claimed 1 (List.replicate 30 'é') =
      String.mk ("task/1-".data ++ List.replicate 30 'é') ∧
    generate_branch_name 1 (List.replicate 30 'é') ≠
      some (generate_branch_name_claimed 1 (List.replicate 30 'é')) := by
  refine ⟨by decide, by decide, ?_⟩
  intro h
  rw [show generate_branch_name 1 (List.replicate 30 'é') =
      some (String.mk ("task/1-".data ++ List.replicate 25 'é')) from by decide,
    show generate_branch_name_claimed 1 (List.replicate 30 'é') =
      String.mk ("task/1-".data ++ List.replicate 30 'é') from by decide] at h
  simp at h

/-- C5 amended: branch name generation is a pure function that maps each
character that is neither alphanumeric nor a hyphen to a hyphen, lowercases,
trims hyphens at both ends, truncates to the first 50 UTF-8 BYTES (not
characters), and returns `task/<id>-<slug>`; the two quoted examples hold,
and whenever the function returns, the slug part is at most 50 bytes and
made only of alphanumerics and hyphens. -/
theorem C5_branch_name_amended :
    generate_branch_name 123 "Fix login bug!".data = some "task/123-fix-login-bug" ∧
    generate_branch_name 1 "Hello World!".data = some "task/1-hello-world" ∧
    ∀ (tid : Int) (slug : List Char) (r : String),
      generate_branch_name tid slug = some r →
      ∃ t : List Char,
        r = "task/" ++ toString tid ++ "-" ++ String.mk t ∧
        utf8Len t ≤ 50 ∧
        ∀ c ∈ t, rustIsAlphanumeric c = true ∨ c = '-' := by
  refine ⟨by decide, by decide, ?_⟩
  intro tid slug r h
  simp only [generate_branch_name] at h
  by_cases hlen : utf8Len (trimHyphens ((slug.map
      (fun c => if rustIsAlphanumeric c || c = '-' then c else '-')).map
      rustCharToLower)) > 50
  · rw [if_pos hlen] at h
    rcases Option.map_eq_some'.mp h with ⟨t, ht, hr⟩
    refine ⟨t, hr.symm, slicePrefixBytes_utf8Len_le _ _ _ ht, ?_⟩
    intro c hc
    have hmem := (slicePrefixBytes_isPrefix _ _ _ ht).sublist.subset hc
    exact sanitized_lowered_chars slug c ((trimHyphens_sublist _).subset hmem)
  · rw [if_neg hlen] at h
    rcases Option.map_eq_some'.mp h with ⟨t, ht, hr⟩
    have htt := Option.some_inj.mp ht
    subst htt
    refine ⟨_, hr.symm, by omega, ?_⟩
    intro c hc
    exact sanitized_lowered_chars slug c ((trimHyphens_sublist _).subset hc)

/-- Witness for C5 amended at a concrete input: instantiates the universal
part at task id 7 and slug "Ab", whose result `task/7-ab` satisfies the
stated shape. -/
theorem C5_branch_name_amended_witness :
    generate_branch_name 7 "Ab".data = some "task/7-ab" ∧
    ∃ t : List Char,
      "task/7-ab" = "task/" ++ toString (7 : Int) ++ "-" ++ String.mk t ∧
      utf8Len t ≤ 50 ∧
      ∀ c ∈ t, rustIsAlphanumeric c = true ∨ c = '-' :=
  ⟨by decide, C5_branch_name_amended.2.2 7 "Ab".data "task/7-ab" (by decide)⟩

/-- C10: the claim that `generate_branch_name` never panics is right as a
statement of intent, but the code slices the sanitised slug at byte index
50 (`&trimmed[..50]`), which panics whenever that index falls inside a
multi-byte character.  Seventeen CJK characters (3 bytes each, 51 bytes
total) make the cut fall mid-character: the model returns `none`, the
marker for that panic. -/
theorem C10_branch_name_truncation_panics :
    utf8Len (List.replicate 17 '中') = 51 ∧
    generate_branch_name 1 (List.replicate 17 '中') = none := by
  constructor
  · decide
  · decide

/-- Counterexample for C8: `create_worktree` does NOT retry on every first
failure — when the first `git worktree add -b` fails with a stderr not
containing "already exists", it fails immediately with that stderr even if
the retry command would have succeeded, so "a Git error exactly when both
attempts fail" is false. -/
theorem C8_worktree_retry_counterexample :
    create_worktree
        { success := false, stderr := "fatal: not a git repository" }
        { success := true, stderr := "" } =
      .error (.GitError "fatal: not a git repository") ∧
    ({ success := true, stderr := "" } : CmdOutput).success = true := by
  constructor
  · simp [create_worktree]
    decide
  · rfl

/-- C8 amended: `SessionManager::create_git_worktree` retries the plain
`git worktree add <path> <branch>` on every failure of the first command
and returns a Git error carrying the retry's captured stderr exactly when
both attempts fail; the standalone `worktree::create_worktree` retries only
when the first stderr contains "already exists" (then erroring with the
retry's stderr if the retry fails too), and otherwise fails immediately
with the first command's stderr. -/
theorem C8_worktree_retry_amended :
    (∀ first second : CmdOutput,
      (∃ e, create_git_worktree first second = .error e) ↔
        (first.success = false ∧ second.success = false)) ∧
    (∀ first second : CmdOutput,
      first.success = false → second.success = false →
      create_git_worktree first second =
        .error (.Worktree ("Failed to create worktree: " ++ second.stderr))) ∧
    (∀ first second : CmdOutput,
      first.success = false →
      rustContains first.stderr "already exists" = false →
      create_worktree first second = .error (.GitError first.stderr)) ∧
    (∀ first second : CmdOutput,
      first.success = false →
      rustContains first.stderr "already exists" = true →
      create_worktree first second =
        (if second.success then .ok () else .error (.GitError second.stderr))) := by
  refine ⟨?_, ?_, ?_, ?_⟩
  · intro first second
    constructor
    · rintro ⟨e, he⟩
      by_cases h1 : first.success <;> by_cases h2 : second.success <;>
        simp [create_git_worktree, h1, h2] at he ⊢
    · rintro ⟨h1, h2⟩
      exact ⟨.Worktree ("Failed to create worktree: " ++ second.stderr),
        by simp [create_git_worktree, h1, h2]⟩
  · intro first second h1 h2
    simp [create_git_worktree, h1, h2]
  · intro first second h1 h2
    simp [create_worktree, h1, h2]
  · intro first second h1 h2
    simp [create_worktree, h1, h2]

/-- Witness for C8 amended at concrete command outcomes: both attempts fail
in the session-manager path (error carries the retry stderr), and a
non-"already exists" first failure in the worktree module path skips the
retry. -/
theorem C8_worktree_retry_amended_witness :
    ({ success := false, stderr := "e1" } : CmdOutput).success = false ∧
    ({ success := false, stderr := "e2" } : CmdOutput).success = false ∧
    create_git_worktree { success := false, stderr := "e1" }
        { success := false, stderr := "e2" } =
      .error (.Worktree ("Failed to create worktree: " ++ "e2")) ∧
    rustContains "fatal: bad object" "already exists" = false ∧
    create_worktree { success := false, stderr := "fatal: bad object" }
        { success := false, stderr := "e2" } =
      .error (.GitError "fatal: bad object") :=
  ⟨rfl, rfl,
    C8_worktree_retry_amended.2.1
      { success := false, stderr := "e1" } { success := false, stderr := "e2" }
      rfl rfl,
    by decide,
    C8_worktree_retry_amended.2.2.1
      { success := false, stderr := "fatal: bad object" }
      { success := false, stderr := "e2" } rfl (by decide)⟩

end IKanban

namespace IKanban

/-! ## MsgStore (src/executor/msg_store.rs)

The store's mutable buffer (`messages : RwLock<Vec<LogMsg>>`) is modelled
as the list of stored messages; each public operation becomes a state
transition on that list.  The broadcast channel only mirrors pushed
messages to subscribers and never changes the buffer, so `subscribe` is a
pure read here. -/

/-- Log message variants (`LogMsg` in src/executor/msg_store.rs). -/
inductive LogMsg where
  | Stdout (s : String)
  | Stderr (s : String)
  | Event (s : String)
  | SessionId (s : String)
  | Finished
deriving DecidableEq, Repr

/-- The public operations of `MsgStore`. -/
inductive MsgOp where
  | push (m : LogMsg)
  | get_all
  | subscribe
  | clear
deriving DecidableEq, Repr

/-- Effect of one public operation on the stored buffer:
`push` appends (lines 41-47), `get_all` clones a snapshot (lines 49-52),
`subscribe` registers a receiver (lines 54-57), `clear` empties the buffer
(lines 59-64). -/
def MsgStore.step (messages : List LogMsg) : MsgOp → List LogMsg
  | .push m => messages ++ [m]
  | .get_all => messages
  | .subscribe => messages
  | .clear => []

end IKanban

namespace IKanban

/-! ## Theorems for claim C4 -/

/-- Counterexample for C4: `clear` is a public operation of `MsgStore` and
it discards the previously stored messages, so the stored list before it is
not a prefix of the list after it. -/
theorem C4_msgstore_counterexample :
    MsgStore.step [LogMsg.Stdout "m1"] MsgOp.clear = [] ∧
    ¬ [LogMsg.Stdout "m1"] <+: MsgStore.step [LogMsg.Stdout "m1"] MsgOp.clear := by
  refine ⟨rfl, ?_⟩
  intro h
  have := h.sublist.length_le
  simp [MsgStore.step] at this

/-- C4 amended: `push`, `get_all` and `subscribe` preserve the previously
stored messages unchanged and in order — over any sequence of these
operations the buffer before is a prefix of the buffer after, with `push`
appending exactly its message — while `clear` (also public) resets the
buffer to empty. -/
theorem C4_msgstore_amended :
    (∀ (st : List LogMsg) (m : LogMsg), MsgStore.step st (.push m) = st ++ [m]) ∧
    (∀ st : List LogMsg, MsgStore.step st .get_all = st ∧
      MsgStore.step st .subscribe = st) ∧
    (∀ st : List LogMsg, MsgStore.step st .clear = []) ∧
    (∀ (st : List LogMsg) (ops : List MsgOp), (∀ op ∈ ops, op ≠ .clear) →
      st <+: List.foldl MsgStore.step st ops) := by
  refine ⟨fun st m => rfl, fun st => ⟨rfl, rfl⟩, fun st => rfl, ?_⟩
  intro st ops h
  induction ops generalizing st with
  | nil => simp
  | cons op ops ih =>
    have hop : op ≠ .clear := h op (by simp)
    have hrest : ∀ o ∈ ops, o ≠ .clear := fun o ho => h o (by simp [ho])
    have h1 : st <+: MsgStore.step st op := by
      cases op with
      | push m => exact ⟨[m], rfl⟩
      | get_all => exact List.prefix_refl st
      | subscribe => exact List.prefix_refl st
      | clear => exact absurd rfl hop
    have h2 := ih (MsgStore.step st op) hrest
    simpa using h1.trans h2

/-- Witness for C4 amended on a concrete run: a clear-free sequence of a
push, a snapshot read and another push keeps the original message as a
prefix. -/
theorem C4_msgstore_amended_witness :
    (∀ op ∈ [MsgOp.push (LogMsg.Stdout "m2"), MsgOp.get_all,
        MsgOp.push LogMsg.Finished], op ≠ MsgOp.clear) ∧
    [LogMsg.Stdout "m1"] <+:
      List.foldl MsgStore.step [LogMsg.Stdout "m1"]
        [MsgOp.push (LogMsg.Stdout "m2"), MsgOp.get_all,
         MsgOp.push LogMsg.Finished] :=
  ⟨by decide,
    C4_msgstore_amended.2.2.2 [LogMsg.Stdout "m1"]
      [MsgOp.push (LogMsg.Stdout "m2"), MsgOp.get_all,
       MsgOp.push LogMsg.Finished] (by decide)⟩

end IKanban

namespace IKanban

/-! ## OpenCode SDK client (src/executor/opencode/sdk.rs)

Durations are modelled in nanoseconds as `Nat`.  `std::time::Duration`
holds up to `u64::MAX` seconds, so `Duration::checked_mul` overflows (and
returns `None`) exactly when the product reaches `2^64` seconds. -/

/-- Nanoseconds in `n` seconds. -/
def secs (n : Nat) : Nat := n * 1000000000

/-- Nanoseconds in `n` milliseconds. -/
def millis (n : Nat) : Nat := n * 1000000

/-- First nanosecond count no longer representable as a `Duration`. -/
def durationNanosLimit : Nat := 2 ^ 64 * 1000000000

/-- Model of `Duration::checked_mul` against a `Nat` multiplier. -/
def duration_checked_mul (d mult : Nat) : Option Nat :=
  if d * mult < durationNanosLimit then some (d * mult) else none

/-- Reconnect delay (`exponential_backoff`, src/executor/opencode/sdk.rs
lines 597-603): the exponent is `attempt.saturating_sub(1).min(10)` (the
`Nat` subtraction saturates like Rust's), the multiplier `1u32 << exp`
equals `2 ^ exp` since `exp ≤ 10 < 32`, and the product is clamped to 30
seconds, also when the multiplication overflows. -/
def exponential_backoff (base attempt : Nat) : Nat :=
  let e := min (attempt - 1) 10
  let mult := 2 ^ e
  min ((duration_checked_mul base mult).getD (secs 30)) (secs 30)

/-- The backoff formula as the claim states it: `min(base * 2^(n-1), 30s)`
with no cap on the exponent. -/
def exponential_backoff_claimed (base attempt : Nat) : Nat :=
  min (base * 2 ^ (attempt - 1)) (secs 30)

/-- The `max_attempts` constant of `spawn_event_listener` (line 529). -/
def max_attempts : Nat := 20

/-- Outcome of `process_event_stream` on one connected response:
`idle`/`terminal` end the listener, `disconnected` is a clean end of the
byte stream, `errored` a transport error (`Err(_)`); the listener treats
the last two alike. -/
inductive StreamOutcome where
  | idle
  | terminal
  | disconnected
  | errored
deriving DecidableEq, Repr

/-- One observation consumed by the listener loop: the outcome of
processing the currently held response, or the result of one
`connect_event_stream` reconnect call. -/
inductive ListenerStep where
  | stream (o : StreamOutcome)
  | connect (ok : Bool)
deriving DecidableEq, Repr

/-- How a (finite) run of the listener loop ends. -/
inductive ListenerResult where
  | finished
  | disconnectedSent
  | pending
deriving DecidableEq, Repr

/-- The loop of `spawn_event_listener` (src/executor/opencode/sdk.rs lines
516-595) as a step relation on its state `(attempt, holding-a-response)`,
driven by the observation trace.  Taking a held response resets `attempt`
to 0, so a stream drop moves it from 0 to 1; each failed reconnect adds 1;
a successful reconnect resets it via the held-response path;
`ControlEvent::Disconnected` is sent (result `disconnectedSent`) when the
counter reaches `max_attempts`.  An exhausted trace is `pending` (the
listener is still running); a trace offering the wrong kind of observation
for the current state is also `pending` (a well-formed trace never does). -/
def listenerLoop : Nat → Bool → List ListenerStep → ListenerResult
  | _, _, [] => .pending
  | _, true, .stream o :: rest =>
    match o with
    | .idle | .terminal => .finished
    | .disconnected | .errored =>
      if max_attempts ≤ 1 then .disconnectedSent
      else listenerLoop 1 false rest
  | _, true, .connect _ :: _ => .pending
  | _, false, .connect true :: rest => listenerLoop 0 true rest
  | attempt, false, .connect false :: rest =>
    if max_attempts ≤ attempt + 1 then .disconnectedSent
    else listenerLoop (attempt + 1) false rest
  | _, false, .stream _ :: _ => .pending

/-- The event listener starts with the initial connected response held and
the attempt counter at 0. -/
def spawn_event_listener (steps : List ListenerStep) : ListenerResult :=
  listenerLoop 0 true steps

/-- Number of reconnect attempts (calls to `connect_event_stream`) in an
observation trace. -/
def countReconnects (steps : List ListenerStep) : Nat :=
  (steps.filter fun s => match s with | .connect _ => true | _ => false).length

end IKanban

namespace IKanban

/-! ## Theorems for claims C2 and C6 -/

/-- Counterexample for C6: the exponent is additionally capped at 10
(`attempt.saturating_sub(1).min(10)`), so for a 1ms base at attempt 12 the
code yields 1ms·2^10 = 1.024s while the claimed formula
min(b·2^(n−1), 30s) yields 1ms·2^11 = 2.048s. -/
theorem C6_backoff_counterexample :
    exponential_backoff (millis 1) 12 = 1024000000 ∧
    exponential_backoff_claimed (millis 1) 12 = 2048000000 ∧
    exponential_backoff (millis 1) 12 ≠ exponential_backoff_claimed (millis 1) 12 :=
  ⟨by decide, by decide, by decide⟩

/-- C6 amended: for every base `b` and attempt `n ≥ 1` the reconnect delay
is `min(b·2^min(n−1,10), 30s)` — the doubling exponent is capped at 10 and
the result clamped at 30s (also on `Duration` overflow); with the default
3s base, attempts 1..5 yield 3s, 6s, 12s, 24s, 30s. -/
theorem C6_backoff_amended :
    (∀ base attempt : Nat, 1 ≤ attempt →
      exponential_backoff base attempt =
        min (base * 2 ^ (min (attempt - 1) 10)) (secs 30)) ∧
    (exponential_backoff (secs 3) 1 = secs 3 ∧
     exponential_backoff (secs 3) 2 = secs 6 ∧
     exponential_backoff (secs 3) 3 = secs 12 ∧
     exponential_backoff (secs 3) 4 = secs 24 ∧
     exponential_backoff (secs 3) 5 = secs 30) := by
  constructor
  · intro base attempt _
    simp only [exponential_backoff, duration_checked_mul]
    by_cases hmul : base * 2 ^ (min (attempt - 1) 10) < durationNanosLimit
    · rw [if_pos hmul]
      rfl
    · rw [if_neg hmul]
      have h30 : secs 30 < durationNanosLimit := by
        norm_num [secs, durationNanosLimit]
      simp only [Option.getD_none]
      omega
  · exact ⟨by decide, by decide, by decide, by decide, by decide⟩

/-- Witness for C6 amended at base 1ms, attempt 12. -/
theorem C6_backoff_amended_witness :
    (1 : Nat) ≤ 12 ∧
    exponential_backoff (millis 1) 12 =
      min (millis 1 * 2 ^ (min (12 - 1) 10)) (secs 30) :=
  ⟨by decide, C6_backoff_amended.1 (millis 1) 12 (by decide)⟩

/-- Run of consecutive failed reconnects: starting below the attempt cap,
`k` failures either reach the cap (Disconnected is sent) or add `k` to the
counter. -/
theorem listenerLoop_replicate_connect_false (k : Nat) :
    ∀ (a : Nat) (rest : List ListenerStep), a < max_attempts →
      listenerLoop a false (List.replicate k (.connect false) ++ rest) =
        if max_attempts ≤ a + k then .disconnectedSent
        else listenerLoop (a + k) false rest := by
  induction k with
  | zero =>
    intro a rest ha
    simp only [List.replicate_zero, List.nil_append, Nat.add_zero]
    rw [if_neg (by omega)]
  | succ k ih =>
    intro a rest ha
    have hstep : listenerLoop a false
        (List.replicate (k + 1) (.connect false) ++ rest) =
        if max_attempts ≤ a + 1 then .disconnectedSent
        else listenerLoop (a + 1) false
          (List.replicate k (.connect false) ++ rest) := by
      rw [List.replicate_succ, List.cons_append]
      rfl
    rw [hstep]
    by_cases h1 : max_attempts ≤ a + 1
    · rw [if_pos h1, if_pos (by omega)]
    · rw [if_neg h1, ih (a + 1) rest (by omega)]
      have harith : a + 1 + k = a + (k + 1) := by omega
      rw [harith]

/-- After a stream drop (which itself moves the attempt counter to 1),
`k` consecutive failed reconnects end the listener with Disconnected
exactly when `k ≥ 19`. -/
theorem listener_drop_then_failures (k : Nat) :
    listenerLoop 0 true (.stream .disconnected :: List.replicate k (.connect false)) =
      if 19 ≤ k then .disconnectedSent else .pending := by
  have h1 : listenerLoop 0 true
      (.stream .disconnected :: List.replicate k (.connect false)) =
      listenerLoop 1 false (List.replicate k (.connect false)) := by
    simp [listenerLoop, max_attempts]
  have h2 := listenerLoop_replicate_connect_false k 1 [] (by simp [max_attempts])
  rw [List.append_nil] at h2
  rw [h1, h2]
  by_cases h : 19 ≤ k
  · rw [if_pos (by simp only [max_attempts]; omega), if_pos h]
  · rw [if_neg (by simp only [max_attempts]; omega), if_neg h]
    simp [listenerLoop]

/-- Counterexample for C2: Disconnected is reported on the trace made of
one stream drop followed by only NINETEEN failed reconnect attempts — not
twenty as claimed — because the drop itself already advanced the shared
attempt counter to 1. -/
theorem C2_disconnect_exhaustion_counterexample :
    spawn_event_listener
        (.stream .disconnected :: List.replicate 19 (.connect false)) =
      .disconnectedSent ∧
    countReconnects
        (.stream .disconnected :: List.replicate 19 (.connect false)) = 19 ∧
    (19 : Nat) ≠ 20 :=
  ⟨by decide, by decide, by decide⟩

/-- C2 amended: the Disconnected control event is emitted exactly when the
listener's attempt counter reaches 20, where the stream drop itself counts
as attempt 1 — that is, after 19 consecutive failed reconnect attempts
following the most recent drop, and never before; a successful reconnect
resets the counter, so a later drop again affords 19 failed attempts. -/
theorem C2_disconnect_exhaustion_amended :
    (∀ k : Nat,
      spawn_event_listener
          (.stream .disconnected :: List.replicate k (.connect false)) =
        if 19 ≤ k then .disconnectedSent else .pending) ∧
    (∀ j k : Nat, j < 19 →
      spawn_event_listener
          (.stream .disconnected :: (List.replicate j (.connect false) ++
            .connect true :: .stream .disconnected ::
              List.replicate k (.connect false))) =
        if 19 ≤ k then .disconnectedSent else .pending) := by
  constructor
  · intro k
    exact listener_drop_then_failures k
  · intro j k hj
    have h1 : spawn_event_listener
        (.stream .disconnected :: (List.replicate j (.connect false) ++
          .connect true :: .stream .disconnected ::
            List.replicate k (.connect false))) =
        listenerLoop 1 false (List.replicate j (.connect false) ++
          .connect true :: .stream .disconnected ::
            List.replicate k (.connect false)) := by
      simp [spawn_event_listener, listenerLoop, max_attempts]
    rw [h1, listenerLoop_replicate_connect_false j 1 _ (by simp [max_attempts])]
    rw [if_neg (by simp only [max_attempts]; omega)]
    have h2 : listenerLoop (1 + j) false (.connect true ::
        .stream .disconnected :: List.replicate k (.connect false)) =
        listenerLoop 0 true (.stream .disconnected ::
          List.replicate k (.connect false)) := by
      simp [listenerLoop]
    rw [h2, listener_drop_then_failures]

/-- Witness for C2 amended: after three failed reconnects and a successful
one, a second drop followed by 19 failures still ends in Disconnected. -/
theorem C2_disconnect_exhaustion_amended_witness :
    (3 : Nat) < 19 ∧
    spawn_event_listener
        (.stream .disconnected :: (List.replicate 3 (.connect false) ++
          .connect true :: .stream .disconnected ::
            List.replicate 19 (.connect false))) =
      (if 19 ≤ (19 : Nat) then ListenerResult.disconnectedSent else .pending) :=
  ⟨by decide, C2_disconnect_exhaustion_amended.2 3 19 (by decide)⟩

end IKanban

namespace IKanban

/-! ## Log normaliser (src/executor/opencode/normalize.rs)

The normaliser state is modelled by its streaming-text projection: the
message-role table and the two per-messageID streaming text buffers
(`assistant_text`, `thinking_text`), each a map from messageID to the
accumulated `StreamingText.content`.  The `tool_states` table is elided:
no arm of the source that touches it touches the streaming-text maps. -/

/-- Message author role (`MessageRole` in src/executor/opencode/types.rs). -/
inductive MessageRole where
  | User
  | Assistant
deriving DecidableEq, Repr

/-- A text or reasoning part (`TextPart` in types.rs; `ReasoningPart` is an
alias of it). -/
structure TextPart where
  message_id : String
  text : String
deriving DecidableEq, Repr

/-- Message part variants (`Part` in types.rs).  The tool payload is
reduced to its ids — its state machine never touches streaming text. -/
inductive Part where
  | Text (p : TextPart)
  | Reasoning (p : TextPart)
  | Tool (message_id call_id : String)
  | Other
deriving DecidableEq, Repr

/-- Full-text replace versus delta append (`UpdateMode` in normalize.rs). -/
inductive UpdateMode where
  | Append
  | Set
deriving DecidableEq, Repr

/-- A streaming-text table: messageID to accumulated content. -/
def StrMap : Type := String → Option String

/-- `update_streaming_text` (src/executor/opencode/normalize.rs lines
178-204): empty text is ignored; a text of exactly a newline for an unseen
messageID is dropped; otherwise the entry is created at `""` if missing
and then appended to or replaced according to the mode. -/
def update_streaming_text (text message_id : String) (map : StrMap)
    (mode : UpdateMode) : StrMap :=
  if text = "" then map
  else
    let is_new := (map message_id).isNone
    if is_new ∧ text = "\n" then map
    else
      let content := (map message_id).getD ""
      fun k =>
        if k = message_id then
          some (match mode with
            | .Append => content ++ text
            | .Set => text)
        else map k

/-- The streaming-text projection of `LogState` (normalize.rs lines
85-91); `tool_states` elided. -/
structure LogState where
  message_roles : String → Option MessageRole
  assistant_text : StrMap
  thinking_text : StrMap

/-- `LogState::handle_part_update` (normalize.rs lines 136-175): a text
part streams into `assistant_text` only when the message's recorded role
is Assistant; a reasoning part streams into `thinking_text`
unconditionally; a present delta is appended, an absent one replaces with
the part's full text; tool parts update only the elided `tool_states`. -/
def LogState.handle_part_update (s : LogState) (part : Part)
    (delta : Option String) : LogState :=
  match part with
  | .Text p =>
    if s.message_roles p.message_id ≠ some .Assistant then s
    else
      match delta with
      | some d =>
        { s with assistant_text :=
            update_streaming_text d p.message_id s.assistant_text .Append }
      | none =>
        { s with assistant_text :=
            update_streaming_text p.text p.message_id s.assistant_text .Set }
  | .Reasoning p =>
    match delta with
    | some d =>
      { s with thinking_text :=
          update_streaming_text d p.message_id s.thinking_text .Append }
    | none =>
      { s with thinking_text :=
          update_streaming_text p.text p.message_id s.thinking_text .Set }
  | .Tool _ _ => s
  | .Other => s

/-- Concatenation of a list of delta fragments. -/
def concatStrings : List String → String
  | [] => ""
  | d :: ds => d ++ concatStrings ds

/-- Successive application of delta fragments to one messageID's
streaming-text buffer. -/
def applyDeltas (message_id : String) (map : StrMap) (ds : List String) :
    StrMap :=
  ds.foldl (fun m d => update_streaming_text d message_id m .Append) map

end IKanban

namespace IKanban

/-! ## Theorems for claim C9 -/

/-- Appending one delta to an already-seen messageID extends its content by
exactly that delta (also for an empty delta, which the code skips and which
extends the content by nothing). -/
theorem update_streaming_text_seen (d mid : String) (map : StrMap) (s : String)
    (hs : map mid = some s) :
    update_streaming_text d mid map .Append mid = some (s ++ d) := by
  by_cases hd : d = ""
  · subst hd
    simp [update_streaming_text, hs]
  · simp only [update_streaming_text, if_neg hd]
    have hnew : (map mid).isNone = false := by rw [hs]; rfl
    rw [if_neg (by simp [hnew])]
    simp [hs]

/-- Applying a list of deltas to an already-seen messageID appends their
concatenation. -/
theorem applyDeltas_seen (mid : String) (ds : List String) :
    ∀ (map : StrMap) (s : String), map mid = some s →
      applyDeltas mid map ds mid = some (s ++ concatStrings ds) := by
  induction ds with
  | nil =>
    intro map s hs
    simpa [applyDeltas, concatStrings] using hs
  | cons d ds ih =>
    intro map s hs
    have hstep := update_streaming_text_seen d mid map s hs
    have h2 := ih (update_streaming_text d mid map .Append) (s ++ d) hstep
    simp only [applyDeltas, List.foldl_cons] at h2 ⊢
    rw [h2, concatStrings, String.append_assoc]

/-- C9: successive delta fragments for one messageID concatenate — once a
messageID has content `s`, any further delta list extends it to
`s ++ concat(ds)`, and from an unseen messageID a first delta that is
neither empty nor a lone newline starts the buffer at exactly the
concatenation of all fragments; a delta of exactly `"\n"` for an unseen
messageID leaves the whole table unchanged; and `handle_part_update`
routes a present delta into an Append-mode update of the matching
streaming-text map (unconditionally for reasoning parts, and for text
parts whose message role is Assistant). -/
theorem C9_delta_concatenation :
    (∀ (mid : String) (map : StrMap) (s : String) (ds : List String),
      map mid = some s →
      applyDeltas mid map ds mid = some (s ++ concatStrings ds)) ∧
    (∀ (mid : String) (map : StrMap) (d : String) (ds : List String),
      map mid = none → d ≠ "" → d ≠ "\n" →
      applyDeltas mid map (d :: ds) mid = some (concatStrings (d :: ds))) ∧
    (∀ (mid : String) (map : StrMap),
      map mid = none →
      update_streaming_text "\n" mid map .Append = map) ∧
    (∀ (st : LogState) (mid t d : String),
      (st.handle_part_update (.Reasoning ⟨mid, t⟩) (some d)).thinking_text =
        update_streaming_text d mid st.thinking_text .Append) ∧
    (∀ (st : LogState) (mid t d : String),
      st.message_roles mid = some .Assistant →
      (st.handle_part_update (.Text ⟨mid, t⟩) (some d)).assistant_text =
        update_streaming_text d mid st.assistant_text .Append) := by
  refine ⟨fun mid map s ds hs => applyDeltas_seen mid ds map s hs, ?_, ?_, ?_, ?_⟩
  · intro mid map d ds hnone hd hdn
    have hstep : update_streaming_text d mid map .Append mid = some d := by
      simp only [update_streaming_text, if_neg hd]
      have hnew : (map mid).isNone = true := by rw [hnone]; rfl
      rw [if_neg (by simp [hdn])]
      simp [hnone]
    have h2 := applyDeltas_seen mid ds
      (update_streaming_text d mid map .Append) d hstep
    simp only [applyDeltas, List.foldl_cons] at h2 ⊢
    rw [h2, concatStrings]
  · intro mid map hnone
    simp only [update_streaming_text]
    rw [if_neg (by decide)]
    rw [if_pos (by refine ⟨?_, ?_⟩ <;> simp [hnone])]
  · intro st mid t d
    rfl
  · intro st mid t d hrole
    simp [LogState.handle_part_update, hrole]

/-- Witness for C9 at concrete inputs: from an empty table, the deltas
"ab" then "cd" produce the single continuous string "abcd"; a lone "\n"
for the unseen messageID leaves the table unchanged. -/
theorem C9_delta_concatenation_witness :
    ((fun _ => none : StrMap) "m1" = none ∧ "ab" ≠ "" ∧ "ab" ≠ "\n" ∧
      applyDeltas "m1" (fun _ => none) ["ab", "cd"] "m1" =
        some (concatStrings ["ab", "cd"])) ∧
    ((fun _ => none : StrMap) "m1" = none ∧
      update_streaming_text "\n" "m1" (fun _ => none) .Append =
        (fun _ => none : StrMap)) :=
  ⟨⟨rfl, by decide, by decide,
      C9_delta_concatenation.2.1 "m1" (fun _ => none) "ab" ["cd"] rfl
        (by decide) (by decide)⟩,
    ⟨rfl, C9_delta_concatenation.2.2.1 "m1" (fun _ => none) rfl⟩⟩

end IKanban
